import Mathlib

/-!
# Machine provisioning of the allocation-to-machine migration

A shallow embedding of `internal/command/migrate_to_v2/machines.go`:
the launch-spec resolver (`createLaunchMachineInput`,
`resolveMachinesFromAllocs`), the autoscale projector
(`prepAutoscaleMachinesToCreate`) and the provisioner with its recovery
snapshot and convergence waits (`createMachines`).

Conventions.
* A Go `string` is a sequence of bytes (`GoString`); slicing counts bytes.
* A Go `map[string]T` is an association list with at most one entry per key
  (`GoMap`); reading a missing key gives the zero value.
* Pointers to records are modelled by the record itself; a mutation through a
  pointer held in a slice is modelled by replacing the slice element.
* A function that can return an error or stop with a run-time panic returns a
  `Result`.
* The remote fleet API is a pair of response functions (`Remote`); every call
  made is appended, with its response, to a trace.
-/

namespace MigrateToV2

/-! ## Strings, maps, errors -/

/-- A Go string: an immutable sequence of bytes. -/
abbrev GoString := List UInt8

/-- The bytes of a string literal (UTF-8, as the Go compiler stores it). -/
def str (s : String) : GoString := s.toList.flatMap String.utf8EncodeChar

/-- Go `strings.HasSuffix`. -/
def strings.HasSuffix (s suffix : GoString) : Bool := suffix.isSuffixOf s

/-- Go slice expression `s[lo:hi]` on a string; `none` is the run-time panic
"slice bounds out of range". -/
def GoString.slice (s : GoString) (lo hi : Nat) : Option GoString :=
  if lo ≤ hi ∧ hi ≤ s.length then some ((s.take hi).drop lo) else none

/-- Go `strconv.Itoa`: decimal text of an integer. -/
def strconv.Itoa (i : Int) : GoString := str (toString i)

/-- A Go `map[string]T` as an association list. -/
abbrev GoMap (β : Type) := List (GoString × β)

/-- Two-valued map read `v, ok := m[k]`. -/
def GoMap.get? {β : Type} : GoMap β → GoString → Option β
  | [], _ => none
  | (k', v) :: rest, k => if k' = k then some v else GoMap.get? rest k

/-- Map write `m[k] = v`. -/
def GoMap.set {β : Type} : GoMap β → GoString → β → GoMap β
  | [], k, v => [(k, v)]
  | (k', v') :: rest, k, v =>
    if k' = k then (k, v) :: rest else (k', v') :: GoMap.set rest k v

/-- One-valued map read `m[k]` on a `map[string]string`: the empty string when
the key is missing. -/
def GoMap.get (mp : GoMap GoString) (k : GoString) : GoString :=
  (GoMap.get? mp k).getD []

/-- A Go `error` value: `errorf` is built by `fmt.Errorf` without `%w` (or comes
from a collaborator), `wrap` is built by `fmt.Errorf` with `%w` and unwraps to
`cause`. -/
inductive GoError where
  | errorf (msg : GoString)
  | wrap (msg : GoString) (cause : GoError)
deriving DecidableEq, Repr

/-- The method `Error()`: the message text. -/
def GoError.Error : GoError → GoString
  | .errorf msg => msg
  | .wrap msg _ => msg

/-- `errors.Unwrap`. -/
def GoError.Unwrap : GoError → Option GoError
  | .errorf _ => none
  | .wrap _ cause => some cause

/-- Outcome of a call that returns `(value, error)` or stops with a run-time
panic. -/
inductive Result (α : Type) where
  | ok (v : α)
  | err (e : GoError)
  | panicked
deriving DecidableEq, Repr

/-! ## Data model (package `api` and the migrator) -/

/-- Modelled from the spec: `api.MachineConfigMetadataKeyFlyReleaseId` is declared
outside the sources; the key of the "release id" metadata entry. -/
def api.MachineConfigMetadataKeyFlyReleaseId : GoString := str "fly_release_id"

/-- Modelled from the spec: `api.MachineConfigMetadataKeyFlyReleaseVersion` is
declared outside the sources; the key of the "release version" metadata entry. -/
def api.MachineConfigMetadataKeyFlyReleaseVersion : GoString := str "fly_release_version"

/-- Modelled from the spec: `api.MachineConfigMetadataKeyFlyPreviousAlloc` is
declared outside the sources; the key of the "origin allocation" metadata tag. -/
def api.MachineConfigMetadataKeyFlyPreviousAlloc : GoString := str "fly_previous_alloc"

/-- Modelled from the spec: `api.MachineConfigMetadataKeyFlyManagedPostgres` is
declared outside the sources; the key of the "managed" metadata flag. -/
def api.MachineConfigMetadataKeyFlyManagedPostgres : GoString := str "fly-managed-postgres"

/-- The record `api.MachineGuest` (CPU/memory shape). -/
structure MachineGuest where
  CPUKind : GoString
  CPUs : Int
  MemoryMB : Int
deriving DecidableEq, Repr

/-- The record `api.MachineMount`, with the fields set in `createMachines`. -/
structure MachineMount where
  Name : GoString
  Path : GoString
  Volume : GoString
deriving DecidableEq, Repr

/-- The record `api.MachineService`, with the fields written by
`prepAutoscaleMachinesToCreate`; each is a pointer (`none` is nil). -/
structure MachineService where
  MinMachinesRunning : Option Int
  Autostart : Option Bool
  Autostop : Option Bool
deriving DecidableEq, Repr

/-- Modelled from the spec: the declaration of `api.MachineConfig` lies outside
the sources. It has the fields the sources use. `Services` is a slice of service
records held by value (`[]MachineService`), as `Mounts` is a slice of mount
records held by value (`[]api.MachineMount`, visible in `createMachines`); the
maps `Metadata` and `Env` are allocated. -/
structure MachineConfig where
  Mounts : List MachineMount
  Guest : Option MachineGuest
  Image : GoString
  Metadata : GoMap GoString
  Env : GoMap GoString
  Services : List MachineService
deriving DecidableEq, Repr

/-- The record `api.LaunchMachineInput`: one machine-launch spec. -/
structure LaunchMachineInput where
  Config : MachineConfig
  Region : GoString
  SkipLaunch : Bool
deriving DecidableEq, Repr

/-- The record `api.AllocationStatus`: a legacy allocation. -/
structure AllocationStatus where
  ID : GoString
  TaskName : GoString
deriving DecidableEq, Repr

/-- The application configuration `appconfig.Config`, as far as it is read
here. -/
structure Config where
  PrimaryRegion : GoString
deriving DecidableEq, Repr

/-- The autoscale bounds `m.autoscaleConfig`; Go `int` counts. -/
structure AutoscaleConfig where
  MinCount : Int
  MaxCount : Int
deriving DecidableEq, Repr

/-- A created volume `api.Volume`. -/
structure Volume where
  ID : GoString
  Name : GoString
deriving DecidableEq, Repr

/-- The record `NewVolume`: a volume assignment. -/
structure NewVolume where
  vol : Volume
  previousAllocId : GoString
  mountPoint : GoString
deriving DecidableEq, Repr

/-- A machine handle `api.Machine`. -/
structure Machine where
  ID : GoString
deriving DecidableEq, Repr

/-- Modelled from the spec: `machine.NewMachineSet` lies outside the sources;
"the final machine-set handle" built "from all successfully created machines". -/
structure MachineSet where
  machines : List Machine
deriving DecidableEq, Repr

/-- The recovery snapshot `m.recovery`. -/
structure recoveryState where
  machinesCreated : List Machine
deriving DecidableEq, Repr

/-- The migrator `v2PlatformMigrator`, with the fields `machines.go` uses. -/
structure v2PlatformMigrator where
  oldAllocs : List AllocationStatus
  appConfig : Option Config
  machineGuests : GoMap MachineGuest
  img : GoString
  releaseId : GoString
  releaseVersion : Int
  isPostgres : Bool
  pgConsulUrl : GoString
  targetImg : GoString
  autoscaleConfig : Option AutoscaleConfig
  newMachinesInput : List LaunchMachineInput
  createdVolumes : List NewVolume
  recovery : recoveryState
  newMachines : Option MachineSet
deriving DecidableEq, Repr

/-- The methods of packages `appconfig` and `api` that `machines.go` calls and
whose bodies lie outside the sources, taken as parameters. -/
structure Collaborators where
  /-- The call `c.ToMachineConfig(processGroup, nil)` on `c : *appconfig.Config`;
  the receiver may be nil (`none`). The configuration returned is a fresh one. -/
  ToMachineConfig : Option Config → GoString → Result MachineConfig
  /-- The call `mConfig.ProcessGroup()` on `mConfig : *api.MachineConfig`. -/
  ProcessGroup : MachineConfig → GoString

/-! ## Launch spec resolver -/

/-- The local `taskName` (lines 16-22): the task name of the first allocation
of the migrator, `"app"` when there is none. -/
def taskName (m : v2PlatformMigrator) : GoString :=
  match m.oldAllocs with
  | alloc :: _ => alloc.TaskName
  | [] => str "app"

/-- The assignments of lines 34-46 to the translated configuration `mConfig`. -/
def launchConfig (m : v2PlatformMigrator) (mConfig : MachineConfig) (guest : MachineGuest)
    (oldAllocID : GoString) : MachineConfig :=
  let mConfig := { mConfig with Mounts := [] }
  let mConfig := { mConfig with Guest := some guest }
  let mConfig := { mConfig with Image := m.img }
  let mConfig := { mConfig with
    Metadata := mConfig.Metadata.set api.MachineConfigMetadataKeyFlyReleaseId m.releaseId }
  let mConfig := { mConfig with
    Metadata := mConfig.Metadata.set api.MachineConfigMetadataKeyFlyReleaseVersion
      (strconv.Itoa m.releaseVersion) }
  let mConfig :=
    if oldAllocID ≠ [] then
      { mConfig with
        Metadata := mConfig.Metadata.set api.MachineConfigMetadataKeyFlyPreviousAlloc oldAllocID }
    else mConfig
  let mConfig :=
    if m.isPostgres then
      { mConfig with
        Env := mConfig.Env.set (str "FLY_CONSUL_URL") m.pgConsulUrl
        Metadata := mConfig.Metadata.set api.MachineConfigMetadataKeyFlyManagedPostgres (str "true") }
    else mConfig
  mConfig

/-- The method `createLaunchMachineInput` (machines.go, lines 15-67). The
translation is called on `m.appConfig` (line 24) before `m.appConfig` is
compared with nil (line 50). -/
def createLaunchMachineInput (x : Collaborators) (m : v2PlatformMigrator)
    (oldAllocID : GoString) (skipLaunch : Bool) : Result LaunchMachineInput :=
  match x.ToMachineConfig m.appConfig (taskName m) with
  | .panicked => .panicked
  | .err e => .err e
  | .ok mConfig =>
    match GoMap.get? m.machineGuests (x.ProcessGroup mConfig) with
    | none =>
      .err (.errorf (str "no guest found for process \x27" ++ x.ProcessGroup mConfig ++ str "\x27"))
    | some guest =>
      let mConfig := launchConfig m mConfig guest oldAllocID
      match m.appConfig with
      | none => .err (.errorf (str "Could not find app config"))
      | some appConfig =>
        let region := appConfig.PrimaryRegion
        if strings.HasSuffix region (str "2") then
          match region.slice 0 3 with
          | none => .panicked
          | some region =>
            .ok { Config := mConfig, Region := region, SkipLaunch := skipLaunch }
        else
          .ok { Config := mConfig, Region := region, SkipLaunch := skipLaunch }

/-- The method `resolveMachineFromAlloc` (lines 69-71). -/
def resolveMachineFromAlloc (x : Collaborators) (m : v2PlatformMigrator)
    (alloc : AllocationStatus) : Result LaunchMachineInput :=
  createLaunchMachineInput x m alloc.ID false

/-- The loop of `resolveMachinesFromAllocs` (lines 122-128) over the allocations
still to resolve, `res` being the specs appended so far. -/
def resolveLoop (x : Collaborators) (m : v2PlatformMigrator) :
    List AllocationStatus → List LaunchMachineInput → Result (List LaunchMachineInput)
  | [], res => .ok res
  | alloc :: rest, res =>
    match resolveMachineFromAlloc x m alloc with
    | .ok mach => resolveLoop x m rest (res ++ [mach])
    | .err e => .err e
    | .panicked => .panicked

/-- The method `resolveMachinesFromAllocs` (lines 120-130). -/
def resolveMachinesFromAllocs (x : Collaborators) (m : v2PlatformMigrator) :
    Result (List LaunchMachineInput) :=
  resolveLoop x m m.oldAllocs []

/-! ## Autoscale projector -/

/-- One of the two padding loops of `prepAutoscaleMachinesToCreate`
(lines 90-97 with `skipLaunch = false`, lines 100-107 with `skipLaunch = true`):
`for i := len(m.newMachinesInput); i < bound; i += 1`, given the number
`bound - i` of iterations left. Each iteration appends one spec; an error stops
the method with what was appended so far. -/
def padLoop (x : Collaborators) (skipLaunch : Bool) :
    Nat → v2PlatformMigrator → v2PlatformMigrator × Result Unit
  | 0, m => (m, .ok ())
  | left + 1, m =>
    match createLaunchMachineInput x m [] skipLaunch with
    | .ok launchMachineInput =>
      padLoop x skipLaunch left
        { m with newMachinesInput := m.newMachinesInput ++ [launchMachineInput] }
    | .err e =>
      (m, .err (.errorf
        (str "could not create machine to reach autoscale minimum count: " ++ e.Error)))
    | .panicked => (m, .panicked)

/-- The body of the inner loop (lines 111-113) on its loop variable. -/
def stampService (ac : AutoscaleConfig) (service : MachineService) : MachineService :=
  let service := { service with MinMachinesRunning := some ac.MinCount }
  let service := { service with Autostart := some true }
  let service := { service with Autostop := some true }
  service

/-- The inner loop `for _, service := range input.Config.Services` (lines
110-114). `range` copies each element of the slice of records into the loop
variable `service`; the body assigns to that copy, and the slice element stays
as it was. -/
def stampServices (ac : AutoscaleConfig) (services : List MachineService) :
    List MachineService :=
  services.map fun element =>
    let service := element
    let _service := stampService ac service
    element

/-- The outer loop `for _, input := range m.newMachinesInput` (lines 109-115);
`input` is a pointer, so what the inner loop does to `input.Config.Services`
is what happens to the spec. -/
def stampInputs (ac : AutoscaleConfig) (inputs : List LaunchMachineInput) :
    List LaunchMachineInput :=
  inputs.map fun input =>
    { input with Config := { input.Config with Services := stampServices ac input.Config.Services } }

/-- The method `prepAutoscaleMachinesToCreate` (lines 83-118): the migrator
afterwards and the outcome. -/
def prepAutoscaleMachinesToCreate (x : Collaborators) (m : v2PlatformMigrator) :
    v2PlatformMigrator × Result Unit :=
  match m.autoscaleConfig with
  | none => (m, .ok ())
  | some ac =>
    match padLoop x false (ac.MinCount - (m.newMachinesInput.length : Int)).toNat m with
    | (m, .err e) => (m, .err e)
    | (m, .panicked) => (m, .panicked)
    | (m, .ok ()) =>
      match padLoop x true (ac.MaxCount - (m.newMachinesInput.length : Int)).toNat m with
      | (m, .err e) => (m, .err e)
      | (m, .panicked) => (m, .panicked)
      | (m, .ok ()) =>
        ({ m with newMachinesInput := stampInputs ac m.newMachinesInput }, .ok ())

/-- The method `prepMachinesToCreate` (lines 73-81). On an error of the resolver
the field is assigned the nil slice returned with it. -/
def prepMachinesToCreate (x : Collaborators) (m : v2PlatformMigrator) :
    v2PlatformMigrator × Result Unit :=
  match resolveMachinesFromAllocs x m with
  | .err e => ({ m with newMachinesInput := [] }, .err e)
  | .panicked => (m, .panicked)
  | .ok res => prepAutoscaleMachinesToCreate x { m with newMachinesInput := res }

/-! ## Provisioner and convergence waiter -/

/-- The record `createdMachine` (lines 132-135). -/
structure createdMachine where
  machine : Machine
  expectedState : GoString
deriving DecidableEq, Repr

/-- Go `time.Minute`, a `time.Duration` in nanoseconds. -/
def time.Minute : Int := 60 * 1000000000

/-- What a create call `flapsClient.Launch` returns, `(*api.Machine, error)`. -/
inductive Launched where
  | ok (newMachine : Machine)
  | error (err : GoError)
deriving DecidableEq, Repr

/-- The remote fleet API: the response of the `n`-th create call
(`flapsClient.Launch`) and of the `n`-th wait call
(`machine.WaitForStartOrStop`), counted from 0, to its arguments. -/
structure Remote where
  Launch : Nat → LaunchMachineInput → Launched
  WaitForStartOrStop : Nat → Machine → GoString → Int → Option GoError

/-- A remote call as it was made, with its response. -/
inductive Event where
  | Launch (input : LaunchMachineInput) (response : Launched)
  | WaitForStartOrStop (machine : Machine) (expectedState : GoString) (timeout : Int)
      (response : Option GoError)
deriving DecidableEq, Repr

/-- The image override of lines 148-150, for a managed database migrated to a
target image. -/
def overrideImage (m : v2PlatformMigrator) (machineInput : LaunchMachineInput) :
    LaunchMachineInput :=
  if m.isPostgres ∧ m.targetImg ≠ [] then
    { machineInput with Config := { machineInput.Config with Image := m.targetImg } }
  else machineInput

/-- The volume assignment of lines 152-161: `lo.Find` gives the first element of
`m.createdVolumes` whose `previousAllocId` equals the origin tag read from the
metadata map, and its mount replaces the mounts of the spec. -/
def assignVolume (m : v2PlatformMigrator) (machineInput : LaunchMachineInput) :
    LaunchMachineInput :=
  match m.createdVolumes.find? (fun v =>
      decide (v.previousAllocId =
        machineInput.Config.Metadata.get api.MachineConfigMetadataKeyFlyPreviousAlloc)) with
  | some nv =>
    { machineInput with
      Config := { machineInput.Config with
        Mounts := [{ Name := nv.vol.Name, Path := nv.mountPoint, Volume := nv.vol.ID }] } }
  | none => machineInput

/-- What lines 148-161 do to a spec before it is submitted: the image override,
then the volume assignment. -/
def prepareInput (m : v2PlatformMigrator) (machineInput : LaunchMachineInput) :
    LaunchMachineInput :=
  assignVolume m (overrideImage m machineInput)

/-- The local `expectedState` of lines 168-171: the action whose completion is
waited for, `"start"` unless the spec requested skip-launch, then `"stop"`. -/
def expectedState (machineInput : LaunchMachineInput) : GoString :=
  if machineInput.SkipLaunch then str "stop" else str "start"

/-- State of the creation loop (lines 147-178) between two iterations. -/
structure CreateState where
  /-- The specs of `m.newMachinesInput` already visited, as the loop left them. -/
  visited : List LaunchMachineInput
  /-- The local `newlyCreatedMachines`. -/
  newlyCreatedMachines : List createdMachine
  /-- The remote calls made so far. -/
  trace : List Event
  /-- The error the method returns from inside the loop, if any. -/
  err : Option GoError

/-- The state the creation loop starts from: `newlyCreatedMachines` is nil
(line 138), no spec visited, no call made. -/
def CreateState.initial : CreateState :=
  { visited := [], newlyCreatedMachines := [], trace := [], err := none }

/-- The creation loop (lines 147-178) over the specs still to visit. The number
of create calls made before is the number of machines created, since every
earlier call succeeded. -/
def createLoop (r : Remote) (m : v2PlatformMigrator) :
    List LaunchMachineInput → CreateState → CreateState
  | [], s => s
  | machineInput :: rest, s =>
    let machineInput := prepareInput m machineInput
    let response := r.Launch s.newlyCreatedMachines.length machineInput
    match response with
    | .error err =>
      { s with
        visited := s.visited ++ machineInput :: rest
        trace := s.trace ++ [Event.Launch machineInput response]
        err := some (.wrap
          (str "failed creating a machine in region " ++ machineInput.Region ++ str ": " ++ err.Error)
          err) }
    | .ok newMachine =>
      let machInfo : createdMachine :=
        { machine := newMachine, expectedState := expectedState machineInput }
      createLoop r m rest
        { s with
          visited := s.visited ++ [machineInput]
          newlyCreatedMachines := s.newlyCreatedMachines ++ [machInfo]
          trace := s.trace ++ [Event.Launch machineInput response] }

/-- The wait loop (lines 180-185) over the machines still to wait on, `n` wait
calls having been made: the error returned from inside the loop, if any, and the
trace. -/
def waitLoop (r : Remote) :
    Nat → List createdMachine → List Event → Option GoError × List Event
  | _, [], trace => (none, trace)
  | n, mach :: rest, trace =>
    let response := r.WaitForStartOrStop n mach.machine mach.expectedState (time.Minute * 5)
    let trace := trace ++ [Event.WaitForStartOrStop mach.machine mach.expectedState
      (time.Minute * 5) response]
    match response with
    | some err => (some err, trace)
    | none => waitLoop r (n + 1) rest trace

/-- The loops at lines 142-144 and 189-191: the machines of a list of
`createdMachine`, appended one by one to an empty slice. -/
def machinesOf (newlyCreatedMachines : List createdMachine) : List Machine :=
  newlyCreatedMachines.foldl (fun acc createdMachine => acc ++ [createdMachine.machine]) []

/-- What a call of `createMachines` leaves behind. -/
structure Pass where
  /-- The migrator after the call. -/
  m : v2PlatformMigrator
  /-- The error returned (`none` is nil). -/
  err : Option GoError
  /-- The remote calls made, in order. -/
  trace : List Event

/-- The method `createMachines` (lines 137-195). The deferred function
(lines 139-145) runs on every return and rewrites the recovery snapshot from
`newlyCreatedMachines`. -/
def createMachines (r : Remote) (m : v2PlatformMigrator) : Pass :=
  let s := createLoop r m m.newMachinesInput CreateState.initial
  let m := { m with newMachinesInput := s.visited }
  let deferred (m : v2PlatformMigrator) : v2PlatformMigrator :=
    { m with recovery := { m.recovery with machinesCreated := machinesOf s.newlyCreatedMachines } }
  match s.err with
  | some err => { m := deferred m, err := some err, trace := s.trace }
  | none =>
    match waitLoop r 0 s.newlyCreatedMachines s.trace with
    | (some err, trace) => { m := deferred m, err := some err, trace := trace }
    | (none, trace) =>
      let newlyCreatedMachinesSet := machinesOf s.newlyCreatedMachines
      let m := { m with newMachines := some { machines := newlyCreatedMachinesSet } }
      { m := deferred m, err := none, trace := trace }

/-! ## Concrete inputs used by the closed statements -/

/-- A translation that, like any method body reading a field of its receiver,
stops with a nil-pointer panic on a nil receiver, and otherwise gives a
configuration with one unstamped service whose process group is the task
name. -/
def sampleCollaborators : Collaborators where
  ToMachineConfig := fun c processGroup =>
    match c with
    | none => .panicked
    | some _ =>
      .ok { Mounts := [], Guest := none, Image := [],
            Metadata := [(str "fly_process_group", processGroup)], Env := [],
            Services := [{ MinMachinesRunning := none, Autostart := none, Autostop := none }] }
  ProcessGroup := fun mConfig => mConfig.Metadata.get (str "fly_process_group")

/-- A guest profile. -/
def sampleGuest (cpus : Int) : MachineGuest :=
  { CPUKind := str "shared", CPUs := cpus, MemoryMB := 256 }

/-- A migrator with the given allocations and primary region, guest profiles for
the process groups `app`, `web` and `worker`, no autoscaling and no volumes. -/
def sampleMigrator (oldAllocs : List AllocationStatus) (region : String) : v2PlatformMigrator :=
  { oldAllocs := oldAllocs
    appConfig := some { PrimaryRegion := str region }
    machineGuests := [(str "app", sampleGuest 1), (str "web", sampleGuest 2),
                      (str "worker", sampleGuest 4)]
    img := str "registry/app:v7"
    releaseId := str "rel-1"
    releaseVersion := 7
    isPostgres := false
    pgConsulUrl := []
    targetImg := []
    autoscaleConfig := none
    newMachinesInput := []
    createdVolumes := []
    recovery := { machinesCreated := [] }
    newMachines := none }

/-- The configuration `sampleCollaborators` translates the task name to. -/
def sampleConfig (processGroup : String) : MachineConfig :=
  { Mounts := [], Guest := none, Image := [],
    Metadata := [(str "fly_process_group", str processGroup)], Env := [],
    Services := [{ MinMachinesRunning := none, Autostart := none, Autostop := none }] }

/-- A legacy allocation. -/
def sampleAlloc (id taskName : String) : AllocationStatus :=
  { ID := str id, TaskName := str taskName }

/-- A spec as the resolver builds it at the sample migrator for the process group
`app`, with the given origin tag (none when empty) and skip-launch flag. -/
def sampleSpec (originTag : String) (skipLaunch : Bool) : LaunchMachineInput :=
  { Config := launchConfig (sampleMigrator [] "iad") (sampleConfig "app") (sampleGuest 1)
      (str originTag)
    Region := str "iad"
    SkipLaunch := skipLaunch }

/-- The sample migrator with one allocation already resolved and autoscale bounds
minimum 3, maximum 5. -/
def sampleAutoscaleMigrator : v2PlatformMigrator :=
  { sampleMigrator [sampleAlloc "alloc-1" "app"] "iad" with
    autoscaleConfig := some { MinCount := 3, MaxCount := 5 }
    newMachinesInput := [sampleSpec "alloc-1" false] }

/-- A remote API that names the machine of the `n`-th create call `m<n>`, fails
the create call number `failCreate` and the wait call number `failWait`. -/
def sampleRemote (failCreate failWait : Option Nat) : Remote where
  Launch := fun n _ =>
    if some n = failCreate then .error (.errorf (str "quota exceeded"))
    else .ok { ID := str "m" ++ strconv.Itoa n }
  WaitForStartOrStop := fun n _ _ _ =>
    if some n = failWait then some (.errorf (str "timeout reached")) else none

/-- The sample migrator about to create machines for the given specs, with the
given volume assignments and a stale recovery snapshot. -/
def sampleProvisioner (specs : List LaunchMachineInput) (volumes : List NewVolume) :
    v2PlatformMigrator :=
  { sampleMigrator [] "iad" with
    newMachinesInput := specs
    createdVolumes := volumes
    recovery := { machinesCreated := [{ ID := str "stale" }] } }

/-- A volume assignment for the given origin allocation. -/
def sampleVolume (previousAllocId : String) : NewVolume :=
  { vol := { ID := str "vol_1", Name := str "data" }
    previousAllocId := str previousAllocId
    mountPoint := str "/data" }

/-- The machine a create call returned, if the event is a create call that
succeeded. -/
def Event.created : Event → Option Machine
  | .Launch _ (.ok newMachine) => some newMachine
  | _ => none

/-- Whether the event is a create call. -/
def Event.isLaunch : Event → Bool
  | .Launch _ _ => true
  | _ => false

/-- Whether the event is a convergence-wait call. -/
def Event.isWait : Event → Bool
  | .WaitForStartOrStop _ _ _ _ => true
  | _ => false

/-- The mounts a spec was submitted with, if the event is a create call. -/
def Event.submittedMounts : Event → Option (List MachineMount)
  | .Launch input _ => some input.Config.Mounts
  | _ => none

/-- The create call for `input` as it appears in the trace when it returned
`newMachine`. -/
def launchedEvent (m : v2PlatformMigrator) (input : LaunchMachineInput) (newMachine : Machine) :
    Event :=
  .Launch (prepareInput m input) (.ok newMachine)

/-- The wait call for the machine created for `input`, as it appears in the
trace: expected state `"start"` (wait until started) unless the spec requested
skip-launch, then `"stop"` (wait until stopped); bound `time.Minute * 5`, five
minutes. -/
def waitEvent (response : Option GoError) (input : LaunchMachineInput) (newMachine : Machine) :
    Event :=
  .WaitForStartOrStop newMachine (expectedState input) (time.Minute * 5) response

/-- The record the creation loop appends for `input` when its create call
returned `newMachine`. -/
def createdFor (input : LaunchMachineInput) (newMachine : Machine) : createdMachine :=
  { machine := newMachine, expectedState := expectedState input }


/-- The origin tag as line 154 reads it: the empty string when the spec carries
none. -/
def LaunchMachineInput.originTagRead (spec : LaunchMachineInput) : GoString :=
  spec.Config.Metadata.get api.MachineConfigMetadataKeyFlyPreviousAlloc

/-- The mount built from a volume assignment (lines 156-160). -/
def NewVolume.mount (nv : NewVolume) : MachineMount :=
  { Name := nv.vol.Name, Path := nv.mountPoint, Volume := nv.vol.ID }

/-- The value a call returned, if it returned one without error. -/
def Result.toOption {α : Type} : Result α → Option α
  | .ok v => some v
  | _ => none

/-- The origin-allocation tag a spec carries, if it carries one. -/
def LaunchMachineInput.originTag (spec : LaunchMachineInput) : Option GoString :=
  GoMap.get? spec.Config.Metadata api.MachineConfigMetadataKeyFlyPreviousAlloc

/-- The region of the spec a call produced, if it produced one. -/
def Result.region : Result LaunchMachineInput → Option GoString
  | .ok spec => some spec.Region
  | _ => none

/-! ## Lemmas on maps and on the resolver -/

theorem GoMap.get?_set {β : Type} (mp : GoMap β) (k k' : GoString) (v : β) :
    GoMap.get? (GoMap.set mp k v) k' = if k = k' then some v else GoMap.get? mp k' := by
  induction mp with
  | nil => simp [GoMap.set, GoMap.get?]
  | cons p rest ih =>
    obtain ⟨k0, v0⟩ := p
    by_cases h0 : k0 = k
    · subst h0
      by_cases h1 : k0 = k' <;> simp [GoMap.set, GoMap.get?, h1]
    · by_cases h1 : k0 = k'
      · subst h1
        have : ¬ k = k0 := fun h => h0 h.symm
        simp [GoMap.set, GoMap.get?, h0, this]
      · simp [GoMap.set, GoMap.get?, h0, h1, ih]

theorem key_releaseId_ne_releaseVersion :
    api.MachineConfigMetadataKeyFlyReleaseId ≠ api.MachineConfigMetadataKeyFlyReleaseVersion := by
  decide

theorem key_releaseId_ne_previousAlloc :
    api.MachineConfigMetadataKeyFlyReleaseId ≠ api.MachineConfigMetadataKeyFlyPreviousAlloc := by
  decide

theorem key_releaseId_ne_managedPostgres :
    api.MachineConfigMetadataKeyFlyReleaseId ≠ api.MachineConfigMetadataKeyFlyManagedPostgres := by
  decide

theorem key_releaseVersion_ne_previousAlloc :
    api.MachineConfigMetadataKeyFlyReleaseVersion ≠ api.MachineConfigMetadataKeyFlyPreviousAlloc := by
  decide

theorem key_releaseVersion_ne_managedPostgres :
    api.MachineConfigMetadataKeyFlyReleaseVersion ≠ api.MachineConfigMetadataKeyFlyManagedPostgres := by
  decide

theorem key_previousAlloc_ne_managedPostgres :
    api.MachineConfigMetadataKeyFlyPreviousAlloc ≠ api.MachineConfigMetadataKeyFlyManagedPostgres := by
  decide

/-- The slice `region[0:3]` succeeds exactly on strings of at least three bytes,
and gives the first three. -/
theorem GoString.slice_zero_three (s : GoString) :
    s.slice 0 3 = if 3 ≤ s.length then some (s.take 3) else none := by
  simp [GoString.slice]

/-- The spec produced when the translation succeeds, a guest profile is
registered for its process group, and the region does not make the slice
panic. -/
theorem createLaunchMachineInput_ok (x : Collaborators) (m : v2PlatformMigrator)
    (oldAllocID : GoString) (skipLaunch : Bool) (appConfig : Config) (mConfig : MachineConfig)
    (guest : MachineGuest)
    (hc : m.appConfig = some appConfig)
    (ht : x.ToMachineConfig (some appConfig) (taskName m) = .ok mConfig)
    (hg : GoMap.get? m.machineGuests (x.ProcessGroup mConfig) = some guest)
    (hr : strings.HasSuffix appConfig.PrimaryRegion (str "2") = true →
      3 ≤ appConfig.PrimaryRegion.length) :
    createLaunchMachineInput x m oldAllocID skipLaunch =
      .ok { Config := launchConfig m mConfig guest oldAllocID
            Region := if strings.HasSuffix appConfig.PrimaryRegion (str "2") = true
              then appConfig.PrimaryRegion.take 3 else appConfig.PrimaryRegion
            SkipLaunch := skipLaunch } := by
  unfold createLaunchMachineInput
  rw [hc] at *
  simp only [ht, hg]
  by_cases hs : strings.HasSuffix appConfig.PrimaryRegion (str "2") = true
  · simp [hs, GoString.slice_zero_three, hr hs]
  · simp [hs]

/-! ## Region normalization -/

/-- C3, as stated, fails: with primary region `"syd3"`, which ends in a decimal
digit, the spec produced has region `"syd3"`, not `"syd"`. -/
theorem region_syd3_not_truncated :
    (createLaunchMachineInput sampleCollaborators (sampleMigrator [] "syd3") [] false).region
        = some (str "syd3")
      ∧ (str "syd3").take 3 = str "syd"
      ∧ str "syd3" ≠ str "syd" := by
  decide

/-- C3, amended: when a spec can be built (the translation succeeds and a guest
profile is found), its region is the primary region unchanged when that does
not end in `"2"`, and the first three bytes of the primary region when it ends
in `"2"` and has at least three bytes. -/
theorem createLaunchMachineInput_region (x : Collaborators) (m : v2PlatformMigrator)
    (oldAllocID : GoString) (skipLaunch : Bool) (appConfig : Config) (mConfig : MachineConfig)
    (guest : MachineGuest)
    (hc : m.appConfig = some appConfig)
    (ht : x.ToMachineConfig (some appConfig) (taskName m) = .ok mConfig)
    (hg : GoMap.get? m.machineGuests (x.ProcessGroup mConfig) = some guest) :
    (strings.HasSuffix appConfig.PrimaryRegion (str "2") = false →
      (createLaunchMachineInput x m oldAllocID skipLaunch).region
        = some appConfig.PrimaryRegion)
    ∧ (strings.HasSuffix appConfig.PrimaryRegion (str "2") = true →
        3 ≤ appConfig.PrimaryRegion.length →
        (createLaunchMachineInput x m oldAllocID skipLaunch).region
          = some (appConfig.PrimaryRegion.take 3)) := by
  constructor
  · intro hs
    rw [createLaunchMachineInput_ok x m oldAllocID skipLaunch appConfig mConfig guest hc ht hg
      (by simp [hs])]
    simp [Result.region, hs]
  · intro hs hlen
    rw [createLaunchMachineInput_ok x m oldAllocID skipLaunch appConfig mConfig guest hc ht hg
      (fun _ => hlen)]
    simp [Result.region, hs]

/-- Witness of `createLaunchMachineInput_region`: `"ams2"` gives `"ams"` and the
hypotheses hold at the sample migrator. -/
theorem createLaunchMachineInput_region_witness :
    (createLaunchMachineInput sampleCollaborators (sampleMigrator [] "ams2") [] true).region
      = some (str "ams") := by
  have h := (createLaunchMachineInput_region sampleCollaborators (sampleMigrator [] "ams2") [] true
    { PrimaryRegion := str "ams2" }
    { Mounts := [], Guest := none, Image := [],
      Metadata := [(str "fly_process_group", str "app")], Env := [],
      Services := [{ MinMachinesRunning := none, Autostart := none, Autostop := none }] }
    (sampleGuest 1) rfl rfl (by decide)).2 (by decide) (by decide)
  exact h.trans (by decide)

/-! ## Missing application configuration -/

/-- C10 at its failing input: with `m.appConfig` nil and a translation that
dereferences its receiver, the call stops with a panic at line 24 and never
reaches the check of line 50; it does not return the configuration error. -/
theorem createLaunchMachineInput_nil_appConfig_panics :
    createLaunchMachineInput sampleCollaborators
        { sampleMigrator [] "iad" with appConfig := none } [] false = .panicked
      ∧ createLaunchMachineInput sampleCollaborators
        { sampleMigrator [] "iad" with appConfig := none } [] false
          ≠ .err (.errorf (str "Could not find app config")) := by
  decide

/-- With `m.appConfig` nil the outcome is decided by the translation called on
the nil receiver: its panic or its error is the outcome, and the configuration
error is returned only when that call gives a configuration for whose process
group a guest profile is registered. -/
theorem createLaunchMachineInput_nil_appConfig (x : Collaborators) (m : v2PlatformMigrator)
    (oldAllocID : GoString) (skipLaunch : Bool) (hc : m.appConfig = none) :
    createLaunchMachineInput x m oldAllocID skipLaunch =
      match x.ToMachineConfig none (taskName m) with
      | .panicked => .panicked
      | .err e => .err e
      | .ok mConfig =>
        match GoMap.get? m.machineGuests (x.ProcessGroup mConfig) with
        | none => .err (.errorf
            (str "no guest found for process \x27" ++ x.ProcessGroup mConfig ++ str "\x27"))
        | some _ => .err (.errorf (str "Could not find app config")) := by
  unfold createLaunchMachineInput
  rw [hc]

/-! ## Resolution of the allocations -/

theorem launchConfig_releaseId (m : v2PlatformMigrator) (mConfig : MachineConfig)
    (guest : MachineGuest) (oldAllocID : GoString) :
    GoMap.get? (launchConfig m mConfig guest oldAllocID).Metadata
      api.MachineConfigMetadataKeyFlyReleaseId = some m.releaseId := by
  unfold launchConfig
  by_cases hid : oldAllocID = [] <;> cases m.isPostgres <;>
    simp [hid, GoMap.get?_set, key_releaseId_ne_releaseVersion.symm,
      key_releaseId_ne_previousAlloc.symm, key_releaseId_ne_managedPostgres.symm]

theorem launchConfig_releaseVersion (m : v2PlatformMigrator) (mConfig : MachineConfig)
    (guest : MachineGuest) (oldAllocID : GoString) :
    GoMap.get? (launchConfig m mConfig guest oldAllocID).Metadata
      api.MachineConfigMetadataKeyFlyReleaseVersion = some (strconv.Itoa m.releaseVersion) := by
  unfold launchConfig
  by_cases hid : oldAllocID = [] <;> cases m.isPostgres <;>
    simp [hid, GoMap.get?_set, key_releaseVersion_ne_previousAlloc.symm,
      key_releaseVersion_ne_managedPostgres.symm]

theorem launchConfig_previousAlloc (m : v2PlatformMigrator) (mConfig : MachineConfig)
    (guest : MachineGuest) (oldAllocID : GoString) :
    GoMap.get? (launchConfig m mConfig guest oldAllocID).Metadata
      api.MachineConfigMetadataKeyFlyPreviousAlloc =
        if oldAllocID = [] then
          GoMap.get? mConfig.Metadata api.MachineConfigMetadataKeyFlyPreviousAlloc
        else some oldAllocID := by
  unfold launchConfig
  by_cases hid : oldAllocID = [] <;> cases m.isPostgres <;>
    simp [hid, GoMap.get?_set, key_releaseId_ne_previousAlloc,
      key_releaseVersion_ne_previousAlloc, key_previousAlloc_ne_managedPostgres.symm]

theorem launchConfig_mounts (m : v2PlatformMigrator) (mConfig : MachineConfig)
    (guest : MachineGuest) (oldAllocID : GoString) :
    (launchConfig m mConfig guest oldAllocID).Mounts = [] := by
  unfold launchConfig
  by_cases hid : oldAllocID = [] <;> cases m.isPostgres <;> simp [hid]

theorem launchConfig_guest (m : v2PlatformMigrator) (mConfig : MachineConfig)
    (guest : MachineGuest) (oldAllocID : GoString) :
    (launchConfig m mConfig guest oldAllocID).Guest = some guest := by
  unfold launchConfig
  by_cases hid : oldAllocID = [] <;> cases m.isPostgres <;> simp [hid]

/-- The loop gives the specs of all allocations when each one resolves. -/
theorem resolveLoop_ok (x : Collaborators) (m : v2PlatformMigrator)
    (f : AllocationStatus → LaunchMachineInput) (allocs : List AllocationStatus)
    (h : ∀ a ∈ allocs, resolveMachineFromAlloc x m a = .ok (f a))
    (res : List LaunchMachineInput) :
    resolveLoop x m allocs res = .ok (res ++ allocs.map f) := by
  induction allocs generalizing res with
  | nil => simp [resolveLoop]
  | cons a rest ih =>
    have ha := h a (List.mem_cons_self a rest)
    simp only [resolveLoop, ha]
    rw [ih (fun b hb => h b (List.mem_cons_of_mem a hb))]
    simp

/-- The loop gives no specs when one allocation does not resolve. -/
theorem resolveLoop_fails (x : Collaborators) (m : v2PlatformMigrator)
    (allocs : List AllocationStatus) (a : AllocationStatus) (ha : a ∈ allocs)
    (hfail : (resolveMachineFromAlloc x m a).toOption = none)
    (res : List LaunchMachineInput) :
    (resolveLoop x m allocs res).toOption = none := by
  induction allocs generalizing res with
  | nil => cases ha
  | cons b rest ih =>
    simp only [resolveLoop]
    cases hb : resolveMachineFromAlloc x m b with
    | err e => rfl
    | panicked => rfl
    | ok mach =>
      simp only
      rcases List.mem_cons.mp ha with hab | hmem
      · subst hab
        rw [hb] at hfail
        cases hfail
      · exact ih hmem _

/-- C6, as stated, fails. A registered guest profile does not make the call
succeed: with primary region `"a2"` the slice of line 57 stops it with a panic,
and so does the translation called on a nil application configuration
(line 24). And an allocation whose ID is the empty string resolves to a spec
that carries no origin-allocation tag (the guard of line 39), not a tag equal to
its ID. -/
theorem resolve_valid_profile_not_enough :
    GoMap.get? (sampleMigrator [sampleAlloc "alloc-1" "web"] "a2").machineGuests (str "web")
        = some (sampleGuest 2)
      ∧ resolveMachinesFromAllocs sampleCollaborators
          (sampleMigrator [sampleAlloc "alloc-1" "web"] "a2") = .panicked
      ∧ resolveMachinesFromAllocs sampleCollaborators
          { sampleMigrator [sampleAlloc "alloc-1" "web"] "iad" with appConfig := none }
          = .panicked
      ∧ ((resolveMachinesFromAllocs sampleCollaborators
          (sampleMigrator [sampleAlloc "" "app"] "iad")).toOption.map
            (fun specs => specs.map LaunchMachineInput.originTag)) = some [none]
      ∧ (none : Option GoString) ≠ some (sampleAlloc "" "app").ID := by
  decide

/-- C6, amended: for every list of N allocations with valid guest profiles
(every allocation's task name translates to a configuration whose process group
has a registered guest profile), when the application configuration is present
and its primary region does not end in `"2"` or has at least three bytes,
`resolveMachinesFromAllocs` succeeds and returns exactly N specs, in input
order; the `i`-th spec has `SkipLaunch = false`, carries the release id and the
release version, and, when the `i`-th allocation's ID is not empty, an
origin-allocation tag equal to that ID. When some allocation does not resolve,
the call returns no specs. -/
theorem resolveMachinesFromAllocs_specs (x : Collaborators) (m : v2PlatformMigrator) :
    (∀ appConfig : Config, m.appConfig = some appConfig →
      (∀ a ∈ m.oldAllocs, ∃ mConfig guest,
        x.ToMachineConfig (some appConfig) a.TaskName = .ok mConfig ∧
        GoMap.get? m.machineGuests (x.ProcessGroup mConfig) = some guest) →
      (strings.HasSuffix appConfig.PrimaryRegion (str "2") = true →
        3 ≤ appConfig.PrimaryRegion.length) →
      ∃ specs, resolveMachinesFromAllocs x m = .ok specs ∧
        specs.length = m.oldAllocs.length ∧
        ∀ (i : Nat) (h1 : i < specs.length) (h2 : i < m.oldAllocs.length),
          specs[i].SkipLaunch = false ∧
          GoMap.get? specs[i].Config.Metadata api.MachineConfigMetadataKeyFlyReleaseId
            = some m.releaseId ∧
          GoMap.get? specs[i].Config.Metadata api.MachineConfigMetadataKeyFlyReleaseVersion
            = some (strconv.Itoa m.releaseVersion) ∧
          (m.oldAllocs[i].ID ≠ [] → specs[i].originTag = some m.oldAllocs[i].ID))
    ∧ (∀ a ∈ m.oldAllocs, (resolveMachineFromAlloc x m a).toOption = none →
        (resolveMachinesFromAllocs x m).toOption = none) := by
  constructor
  · intro appConfig hc hvalid hr
    cases hallocs : m.oldAllocs with
    | nil =>
      refine ⟨[], ?_, rfl, ?_⟩
      · simp [resolveMachinesFromAllocs, hallocs, resolveLoop]
      · intro i h1; simp at h1
    | cons a0 rest =>
      obtain ⟨mConfig, guest, ht, hg⟩ := hvalid a0 (by simp [hallocs])
      have htask : taskName m = a0.TaskName := by simp [taskName, hallocs]
      have hone : ∀ a ∈ m.oldAllocs, resolveMachineFromAlloc x m a =
          .ok { Config := launchConfig m mConfig guest a.ID
                Region := if strings.HasSuffix appConfig.PrimaryRegion (str "2") = true
                  then appConfig.PrimaryRegion.take 3 else appConfig.PrimaryRegion
                SkipLaunch := false } := by
        intro a _
        exact createLaunchMachineInput_ok x m a.ID false appConfig mConfig guest hc
          (by rw [htask]; exact ht) hg hr
      have hloop := resolveLoop_ok x m _ m.oldAllocs hone []
      rw [hallocs] at hloop
      refine ⟨_, by rw [resolveMachinesFromAllocs, hallocs]; exact hloop, by simp, ?_⟩
      intro i h1 h2
      simp only [List.nil_append, List.getElem_map, LaunchMachineInput.originTag,
        launchConfig_releaseId, launchConfig_releaseVersion, launchConfig_previousAlloc,
        true_and]
      intro hid
      simp [hid]
  · intro a ha hfail
    exact resolveLoop_fails x m m.oldAllocs a ha hfail []

/-- Witness of `resolveMachinesFromAllocs_specs`: two allocations of the group
`web` at the sample migrator resolve to two specs. -/
theorem resolveMachinesFromAllocs_specs_witness :
    ∃ specs, resolveMachinesFromAllocs sampleCollaborators
        (sampleMigrator [sampleAlloc "alloc-1" "web", sampleAlloc "alloc-2" "web"] "ams2")
          = .ok specs ∧ specs.length = 2 := by
  obtain ⟨specs, h, hlen, _⟩ := (resolveMachinesFromAllocs_specs sampleCollaborators
    (sampleMigrator [sampleAlloc "alloc-1" "web", sampleAlloc "alloc-2" "web"] "ams2")).1
    { PrimaryRegion := str "ams2" } rfl
    (by
      intro a ha
      refine ⟨sampleConfig "web", sampleGuest 2, ?_, by decide⟩
      simp only [sampleMigrator, List.mem_cons, List.mem_singleton, List.not_mem_nil,
        or_false] at ha
      rcases ha with rfl | rfl <;> decide)
    (by decide)
  exact ⟨specs, h, hlen⟩

/-- C7 at its failing input: for the allocations `alloc-1` of group `web` and
`alloc-2` of group `worker`, the spec resolved for `alloc-2` has the process
group and the guest profile of `web`, the group of the first allocation, while
the profile registered for `worker` is another one. -/
theorem resolveMachineFromAlloc_uses_first_alloc_group :
    ((resolveMachineFromAlloc sampleCollaborators
        (sampleMigrator [sampleAlloc "alloc-1" "web", sampleAlloc "alloc-2" "worker"] "iad")
        (sampleAlloc "alloc-2" "worker")).toOption.map
          (fun spec => (sampleCollaborators.ProcessGroup spec.Config, spec.Config.Guest)))
        = some (str "web", some (sampleGuest 2))
      ∧ GoMap.get? (sampleMigrator
          [sampleAlloc "alloc-1" "web", sampleAlloc "alloc-2" "worker"] "iad").machineGuests
          (str "worker") = some (sampleGuest 4)
      ∧ sampleGuest 2 ≠ sampleGuest 4 := by
  decide

/-! ## Autoscale projection -/

theorem createLaunchMachineInput_newMachinesInput (x : Collaborators) (m : v2PlatformMigrator)
    (inputs : List LaunchMachineInput) (oldAllocID : GoString) (skipLaunch : Bool) :
    createLaunchMachineInput x { m with newMachinesInput := inputs } oldAllocID skipLaunch
      = createLaunchMachineInput x m oldAllocID skipLaunch := rfl

/-- A padding loop of `left` iterations appends `left` copies of the padding
spec when that spec can be built. -/
theorem padLoop_ok (x : Collaborators) (skipLaunch : Bool) (spec : LaunchMachineInput)
    (left : Nat) (m : v2PlatformMigrator)
    (h : createLaunchMachineInput x m [] skipLaunch = .ok spec) :
    padLoop x skipLaunch left m =
      ({ m with newMachinesInput := m.newMachinesInput ++ List.replicate left spec }, .ok ()) := by
  induction left generalizing m with
  | zero => simp [padLoop]
  | succ k ih =>
    simp only [padLoop, h]
    rw [ih _ (by rw [createLaunchMachineInput_newMachinesInput]; exact h)]
    simp [List.replicate_succ]

/-- The stamping loops leave every spec as it was: the inner loop assigns to a
copy of each service record. -/
theorem stampInputs_eq (ac : AutoscaleConfig) (inputs : List LaunchMachineInput) :
    stampInputs ac inputs = inputs := by
  simp [stampInputs, stampServices]

/-- The element at index `i` of a list padded twice. -/
theorem getElem_padded {α : Type} (orig : List α) (a b : Nat) (s t : α) (i : Nat)
    (h : i < (orig ++ List.replicate a s ++ List.replicate b t).length) (hi : orig.length ≤ i) :
    (orig ++ List.replicate a s ++ List.replicate b t)[i] =
      if i < orig.length + a then s else t := by
  have h? : (orig ++ List.replicate a s ++ List.replicate b t)[i]? =
      some (if i < orig.length + a then s else t) := by
    simp only [List.length_append, List.length_replicate] at h
    by_cases h1 : i < orig.length + a
    · rw [List.getElem?_append_left (by simp; omega), List.getElem?_append_right hi,
        List.getElem?_replicate]
      simp [h1]
      omega
    · rw [List.getElem?_append_right (by simp; omega), List.getElem?_replicate]
      simp [h1]
      omega
  rw [List.getElem?_eq_getElem h] at h?
  exact Option.some.inj h?

/-- The result of `prepAutoscaleMachinesToCreate` when the padding spec can be
built: the list is extended by the started padding specs up to the minimum, then
by the stopped ones up to the maximum. -/
theorem prepAutoscaleMachinesToCreate_ok (x : Collaborators) (m : v2PlatformMigrator)
    (ac : AutoscaleConfig) (appConfig : Config) (mConfig : MachineConfig) (guest : MachineGuest)
    (hac : m.autoscaleConfig = some ac)
    (hc : m.appConfig = some appConfig)
    (ht : x.ToMachineConfig (some appConfig) (taskName m) = .ok mConfig)
    (hg : GoMap.get? m.machineGuests (x.ProcessGroup mConfig) = some guest)
    (hr : strings.HasSuffix appConfig.PrimaryRegion (str "2") = true →
      3 ≤ appConfig.PrimaryRegion.length) :
    ∃ started stopped : LaunchMachineInput,
      started.SkipLaunch = false ∧ stopped.SkipLaunch = true ∧
      started.Config = launchConfig m mConfig guest [] ∧
      stopped.Config = launchConfig m mConfig guest [] ∧
      prepAutoscaleMachinesToCreate x m =
        ({ m with
            newMachinesInput :=
              m.newMachinesInput
                ++ List.replicate (ac.MinCount - (m.newMachinesInput.length : Int)).toNat started
                ++ List.replicate
                    (ac.MaxCount - ((m.newMachinesInput.length
                      + (ac.MinCount - (m.newMachinesInput.length : Int)).toNat : Nat) : Int)).toNat
                    stopped },
          .ok ()) := by
  have h1 := createLaunchMachineInput_ok x m [] false appConfig mConfig guest hc ht hg hr
  have h2 := createLaunchMachineInput_ok x m [] true appConfig mConfig guest hc ht hg hr
  obtain ⟨started, h1, hs1, hc1⟩ : ∃ spec, createLaunchMachineInput x m [] false = .ok spec ∧
      spec.SkipLaunch = false ∧ spec.Config = launchConfig m mConfig guest [] :=
    ⟨_, h1, rfl, rfl⟩
  obtain ⟨stopped, h2, hs2, hc2⟩ : ∃ spec, createLaunchMachineInput x m [] true = .ok spec ∧
      spec.SkipLaunch = true ∧ spec.Config = launchConfig m mConfig guest [] :=
    ⟨_, h2, rfl, rfl⟩
  refine ⟨started, stopped, hs1, hs2, hc1, hc2, ?_⟩
  unfold prepAutoscaleMachinesToCreate
  simp only [hac]
  rw [padLoop_ok x false _ _ m h1]
  simp only
  rw [padLoop_ok x true _ _ _ (by rw [createLaunchMachineInput_newMachinesInput]; exact h2)]
  simp [stampInputs_eq, hac]

/-- C5: `prepAutoscaleMachinesToCreate` leaves the list unchanged when
`m.autoscaleConfig` is nil. Otherwise, when the padding spec can be built (the
application configuration is present, the translation succeeds with a
configuration that has a registered guest profile and no origin tag of its own,
and the region does not make the slice panic), it returns nil, keeps the `n`
original specs as the prefix and extends the list to length
`max(n, MinCount, MaxCount)`; the spec at index `i` has `SkipLaunch = false` for
`n ≤ i < MinCount` and `SkipLaunch = true` for `max(n, MinCount) ≤ i < MaxCount`,
and no spec at an index `i ≥ n` carries an origin-allocation tag. -/
theorem prepAutoscaleMachinesToCreate_padding (x : Collaborators) (m : v2PlatformMigrator) :
    (m.autoscaleConfig = none → prepAutoscaleMachinesToCreate x m = (m, .ok ()))
    ∧ (∀ (ac : AutoscaleConfig) (appConfig : Config) (mConfig : MachineConfig)
        (guest : MachineGuest),
        m.autoscaleConfig = some ac →
        m.appConfig = some appConfig →
        x.ToMachineConfig (some appConfig) (taskName m) = .ok mConfig →
        GoMap.get? m.machineGuests (x.ProcessGroup mConfig) = some guest →
        GoMap.get? mConfig.Metadata api.MachineConfigMetadataKeyFlyPreviousAlloc = none →
        (strings.HasSuffix appConfig.PrimaryRegion (str "2") = true →
          3 ≤ appConfig.PrimaryRegion.length) →
        (prepAutoscaleMachinesToCreate x m).2 = .ok () ∧
        (prepAutoscaleMachinesToCreate x m).1.newMachinesInput.take m.newMachinesInput.length
          = m.newMachinesInput ∧
        ((prepAutoscaleMachinesToCreate x m).1.newMachinesInput.length : Int)
          = max (m.newMachinesInput.length : Int) (max ac.MinCount ac.MaxCount) ∧
        ∀ (i : Nat) (h : i < (prepAutoscaleMachinesToCreate x m).1.newMachinesInput.length),
          m.newMachinesInput.length ≤ i →
          ((i : Int) < ac.MinCount →
            (prepAutoscaleMachinesToCreate x m).1.newMachinesInput[i].SkipLaunch = false) ∧
          (ac.MinCount ≤ (i : Int) → (i : Int) < ac.MaxCount →
            (prepAutoscaleMachinesToCreate x m).1.newMachinesInput[i].SkipLaunch = true) ∧
          (prepAutoscaleMachinesToCreate x m).1.newMachinesInput[i].originTag = none) := by
  constructor
  · intro hnone
    simp [prepAutoscaleMachinesToCreate, hnone]
  · intro ac appConfig mConfig guest hac hc ht hg hbase hr
    obtain ⟨started, stopped, hs1, hs2, hc1, hc2, heq⟩ :=
      prepAutoscaleMachinesToCreate_ok x m ac appConfig mConfig guest hac hc ht hg hr
    have htag : ∀ spec : LaunchMachineInput, spec.Config = launchConfig m mConfig guest [] →
        spec.originTag = none := by
      intro spec hspec
      simp [LaunchMachineInput.originTag, hspec, launchConfig_previousAlloc, hbase]
    rw [heq]
    refine ⟨rfl, ?_, ?_, ?_⟩
    · simp [List.append_assoc]
    · simp only [List.length_append, List.length_replicate]
      omega
    · intro i h hi
      simp only at h ⊢
      rw [getElem_padded _ _ _ _ _ i h hi]
      simp only [List.length_append, List.length_replicate] at h
      refine ⟨?_, ?_, ?_⟩
      · intro hlt
        rw [if_pos (by omega)]
        exact hs1
      · intro hge hlt
        rw [if_neg (by omega)]
        exact hs2
      · split
        · exact htag _ hc1
        · exact htag _ hc2

/-- Witness of `prepAutoscaleMachinesToCreate_padding`: one resolved spec,
minimum 3, maximum 5 give five specs; the original keeps its origin tag, the
specs at positions 2-3 are started and those at positions 4-5 are skip-launch,
all four without origin tag. -/
theorem prepAutoscaleMachinesToCreate_padding_witness :
    (prepAutoscaleMachinesToCreate sampleCollaborators sampleAutoscaleMigrator).2 = .ok ()
    ∧ (prepAutoscaleMachinesToCreate sampleCollaborators
        sampleAutoscaleMigrator).1.newMachinesInput.map
          (fun spec => (spec.SkipLaunch, spec.originTag))
        = [(false, some (str "alloc-1")), (false, none), (false, none), (true, none),
            (true, none)] := by
  refine ⟨((prepAutoscaleMachinesToCreate_padding sampleCollaborators
    sampleAutoscaleMigrator).2 { MinCount := 3, MaxCount := 5 } { PrimaryRegion := str "iad" }
    (sampleConfig "app") (sampleGuest 1) rfl rfl (by decide) (by decide) (by decide)
    (by decide)).1, by decide⟩

/-- C4 at its failing input: one resolved spec with one service, minimum 3,
maximum 5. `prepAutoscaleMachinesToCreate` returns nil with five specs, and the
service of every one of them still has no minimum-running threshold and neither
autostart nor autostop set. -/
theorem prepAutoscaleMachinesToCreate_services_not_stamped :
    (prepAutoscaleMachinesToCreate sampleCollaborators sampleAutoscaleMigrator).2 = .ok ()
    ∧ (prepAutoscaleMachinesToCreate sampleCollaborators
        sampleAutoscaleMigrator).1.newMachinesInput.map (fun spec => spec.Config.Services)
        = List.replicate 5
            [{ MinMachinesRunning := none, Autostart := none, Autostop := none }] := by
  decide

/-! ## Provisioning: invariants of the loops -/

theorem machinesOf_eq_map (cs : List createdMachine) :
    machinesOf cs = cs.map (fun c => c.machine) := by
  have h : ∀ (l : List createdMachine) (init : List Machine),
      l.foldl (fun acc createdMachine => acc ++ [createdMachine.machine]) init
        = init ++ l.map (fun c => c.machine) := by
    intro l
    induction l with
    | nil => simp
    | cons c rest ih => intro init; simp [ih]
  simpa [machinesOf] using h cs []

theorem prepareInput_SkipLaunch (m : v2PlatformMigrator) (input : LaunchMachineInput) :
    (prepareInput m input).SkipLaunch = input.SkipLaunch := by
  have h1 : (overrideImage m input).SkipLaunch = input.SkipLaunch := by
    unfold overrideImage
    split <;> rfl
  have h2 : ∀ spec, (assignVolume m spec).SkipLaunch = spec.SkipLaunch := by
    intro spec
    unfold assignVolume
    split <;> rfl
  rw [prepareInput, h2, h1]

theorem prepareInput_Region (m : v2PlatformMigrator) (input : LaunchMachineInput) :
    (prepareInput m input).Region = input.Region := by
  have h1 : (overrideImage m input).Region = input.Region := by
    unfold overrideImage
    split <;> rfl
  have h2 : ∀ spec, (assignVolume m spec).Region = spec.Region := by
    intro spec
    unfold assignVolume
    split <;> rfl
  rw [prepareInput, h2, h1]

/-- The mounts of a spec as submitted: the single mount of the first volume
assignment whose origin id equals the tag read from the spec, or else the mounts
the spec had. -/
theorem prepareInput_Mounts (m : v2PlatformMigrator) (input : LaunchMachineInput) :
    (prepareInput m input).Config.Mounts =
      match m.createdVolumes.find? (fun v => decide (v.previousAllocId = input.originTagRead)) with
      | some nv => [nv.mount]
      | none => input.Config.Mounts := by
  have h1 : (overrideImage m input).Config.Metadata = input.Config.Metadata := by
    unfold overrideImage
    split <;> rfl
  have h2 : (overrideImage m input).Config.Mounts = input.Config.Mounts := by
    unfold overrideImage
    split <;> rfl
  unfold prepareInput assignVolume LaunchMachineInput.originTagRead NewVolume.mount
  rw [h1]
  split <;> simp_all

/-- The creation loop keeps the machines recorded equal to the machines the
create calls of the trace returned. -/
theorem createLoop_created (r : Remote) (m : v2PlatformMigrator)
    (todo : List LaunchMachineInput) (s : CreateState)
    (h : s.newlyCreatedMachines.map (fun c => c.machine) = s.trace.filterMap Event.created) :
    (createLoop r m todo s).newlyCreatedMachines.map (fun c => c.machine)
      = (createLoop r m todo s).trace.filterMap Event.created := by
  induction todo generalizing s with
  | nil => simpa [createLoop] using h
  | cons input rest ih =>
    simp only [createLoop]
    cases hresp : r.Launch s.newlyCreatedMachines.length (prepareInput m input) with
    | error err => simp [h, Event.created]
    | ok newMachine =>
      simp only
      apply ih
      simp [h, Event.created]

/-- Every event the creation loop adds is the create call of one of the specs it
visits, prepared by lines 148-161. -/
theorem createLoop_trace_mem (r : Remote) (m : v2PlatformMigrator)
    (todo : List LaunchMachineInput) (s : CreateState) (e : Event)
    (he : e ∈ (createLoop r m todo s).trace) :
    e ∈ s.trace ∨ ∃ input ∈ todo, ∃ response, e = Event.Launch (prepareInput m input) response := by
  induction todo generalizing s with
  | nil => exact Or.inl (by simpa [createLoop] using he)
  | cons input rest ih =>
    simp only [createLoop] at he
    cases hresp : r.Launch s.newlyCreatedMachines.length (prepareInput m input) with
    | error err =>
      rw [hresp] at he
      simp only [List.mem_append, List.mem_singleton] at he
      rcases he with he | he
      · exact Or.inl he
      · exact Or.inr ⟨input, List.mem_cons_self _ _, _, he⟩
    | ok newMachine =>
      rw [hresp] at he
      rcases ih _ he with h | ⟨input', hmem, response, heq⟩
      · simp only [List.mem_append, List.mem_singleton] at h
        rcases h with h | h
        · exact Or.inl h
        · exact Or.inr ⟨input, List.mem_cons_self _ _, _, h⟩
      · exact Or.inr ⟨input', List.mem_cons_of_mem _ hmem, response, heq⟩

/-- The wait loop adds only wait calls to the trace. -/
theorem waitLoop_trace (r : Remote) (n : Nat) (cs : List createdMachine) (trace : List Event) :
    ∃ waits, (waitLoop r n cs trace).2 = trace ++ waits ∧
      ∀ e ∈ waits, e.isWait = true := by
  induction cs generalizing n trace with
  | nil => exact ⟨[], by simp [waitLoop], by simp⟩
  | cons c rest ih =>
    simp only [waitLoop]
    cases hresp : r.WaitForStartOrStop n c.machine c.expectedState (time.Minute * 5) with
    | some err =>
      exact ⟨[_], rfl, by simp [Event.isWait]⟩
    | none =>
      obtain ⟨waits, hw, hall⟩ := ih (n + 1) (trace ++
        [Event.WaitForStartOrStop c.machine c.expectedState (time.Minute * 5) none])
      refine ⟨Event.WaitForStartOrStop c.machine c.expectedState (time.Minute * 5) none :: waits,
        by simp only [hw]; simp, ?_⟩
      intro e he
      rcases List.mem_cons.mp he with rfl | he
      · rfl
      · exact hall e he

/-- The trace of a pass is the trace of its creation loop followed by wait
calls only. -/
theorem createMachines_trace (r : Remote) (m : v2PlatformMigrator) :
    ∃ waits, (createMachines r m).trace =
        (createLoop r m m.newMachinesInput CreateState.initial).trace ++ waits ∧
      ∀ e ∈ waits, e.isWait = true := by
  unfold createMachines
  simp only
  split
  · exact ⟨[], by simp, by simp⟩
  · rename_i hnone
    obtain ⟨waits, hw, hall⟩ := waitLoop_trace r 0
      (createLoop r m m.newMachinesInput CreateState.initial).newlyCreatedMachines
      (createLoop r m m.newMachinesInput CreateState.initial).trace
    split
    · rename_i heq
      refine ⟨waits, ?_, hall⟩
      rw [← hw, heq]
    · rename_i heq
      refine ⟨waits, ?_, hall⟩
      rw [← hw, heq]

/-- The recovery snapshot after a pass is what the deferred function computes
from the machines the creation loop recorded. -/
theorem createMachines_snapshot (r : Remote) (m : v2PlatformMigrator) :
    (createMachines r m).m.recovery.machinesCreated =
      machinesOf (createLoop r m m.newMachinesInput CreateState.initial).newlyCreatedMachines := by
  unfold createMachines
  simp only
  split
  · rfl
  · split <;> rfl

/-! ## Provisioning: the loops run on given responses -/

theorem zipWith_createdFor_machines (ms : List Machine) (inputs : List LaunchMachineInput)
    (h : ms.length ≤ inputs.length) :
    (List.zipWith createdFor inputs ms).map (fun c => c.machine) = ms := by
  induction ms generalizing inputs with
  | nil => simp
  | cons mach rest ih =>
    cases inputs with
    | nil => simp at h
    | cons input inputs =>
      simp only [List.zipWith_cons_cons, List.map_cons, createdFor, List.cons.injEq, true_and]
      exact ih inputs (by simpa using h)

/-- The creation loop over specs whose create calls return the machines `ms`:
after them the loop goes on with the remaining specs. -/
theorem createLoop_leading (r : Remote) (m : v2PlatformMigrator) (ms : List Machine) :
    ∀ (todo : List LaunchMachineInput) (s : CreateState), ms.length ≤ todo.length →
      (∀ i input mach, todo[i]? = some input → ms[i]? = some mach →
        r.Launch (s.newlyCreatedMachines.length + i) (prepareInput m input) = .ok mach) →
      createLoop r m todo s = createLoop r m (todo.drop ms.length)
        { visited := s.visited ++ (todo.take ms.length).map (prepareInput m)
          newlyCreatedMachines := s.newlyCreatedMachines ++ List.zipWith createdFor todo ms
          trace := s.trace ++ List.zipWith (launchedEvent m) todo ms
          err := s.err } := by
  induction ms with
  | nil => intro todo s _ _; simp
  | cons mach rest ih =>
    intro todo s hlen h
    cases todo with
    | nil => simp at hlen
    | cons input todo =>
      have h0 := h 0 input mach (by simp) (by simp)
      simp only [Nat.add_zero] at h0
      simp only [createLoop, h0]
      rw [ih todo _ (by simpa using hlen) (by
        intro i input' mach' hi hm
        have := h (i + 1) input' mach' (by simpa using hi) (by simpa using hm)
        simpa [Nat.add_assoc, Nat.add_comm 1 i] using this)]
      simp [createdFor, launchedEvent, expectedState, prepareInput_SkipLaunch]

/-- The creation loop when the create calls of the first specs return the
machines `ms` and the create call of the next spec fails. -/
theorem createLoop_failure (r : Remote) (m : v2PlatformMigrator) (ms : List Machine)
    (inputs : List LaunchMachineInput) (spec : LaunchMachineInput) (cause : GoError)
    (hcreate : ∀ i input mach, inputs[i]? = some input → ms[i]? = some mach →
      r.Launch i (prepareInput m input) = .ok mach)
    (hspec : inputs[ms.length]? = some spec)
    (hfail : r.Launch ms.length (prepareInput m spec) = .error cause) :
    createLoop r m inputs CreateState.initial =
      { visited := (inputs.take ms.length).map (prepareInput m)
          ++ prepareInput m spec :: inputs.drop (ms.length + 1)
        newlyCreatedMachines := List.zipWith createdFor inputs ms
        trace := List.zipWith (launchedEvent m) inputs ms
          ++ [Event.Launch (prepareInput m spec) (.error cause)]
        err := some (.wrap
          (str "failed creating a machine in region " ++ spec.Region ++ str ": " ++ cause.Error)
          cause) } := by
  have hlt : ms.length < inputs.length := by
    by_contra hge
    rw [List.getElem?_eq_none (by omega)] at hspec
    cases hspec
  have hdrop : inputs.drop ms.length = spec :: inputs.drop (ms.length + 1) := by
    rw [List.drop_eq_getElem_cons hlt]
    rw [List.getElem?_eq_getElem hlt] at hspec
    rw [Option.some.inj hspec]
  rw [createLoop_leading r m ms inputs CreateState.initial (by omega) (by
    intro i input mach hi hm
    simpa [CreateState.initial] using hcreate i input mach hi hm)]
  rw [hdrop]
  have hlen : (List.zipWith createdFor inputs ms).length = ms.length := by
    simp; omega
  simp only [createLoop, CreateState.initial, List.nil_append, hlen, hfail, prepareInput_Region]

/-- The creation loop when every create call returns a machine. -/
theorem createLoop_success (r : Remote) (m : v2PlatformMigrator) (ms : List Machine)
    (inputs : List LaunchMachineInput) (hlen : ms.length = inputs.length)
    (hcreate : ∀ i input mach, inputs[i]? = some input → ms[i]? = some mach →
      r.Launch i (prepareInput m input) = .ok mach) :
    createLoop r m inputs CreateState.initial =
      { visited := inputs.map (prepareInput m)
        newlyCreatedMachines := List.zipWith createdFor inputs ms
        trace := List.zipWith (launchedEvent m) inputs ms
        err := none } := by
  rw [createLoop_leading r m ms inputs CreateState.initial (by omega) (by
    intro i input mach hi hm
    simpa [CreateState.initial] using hcreate i input mach hi hm)]
  simp [hlen, createLoop, CreateState.initial]

theorem five_minutes : time.Minute * 5 = 5 * 60 * 1000000000 := by
  decide

/-- The wait loop when every wait call succeeds. -/
theorem waitLoop_success (r : Remote) (ms : List Machine) :
    ∀ (inputs : List LaunchMachineInput) (n : Nat) (trace : List Event),
      (∀ i input mach, inputs[i]? = some input → ms[i]? = some mach →
        r.WaitForStartOrStop (n + i) mach (expectedState input) (time.Minute * 5) = none) →
      waitLoop r n (List.zipWith createdFor inputs ms) trace =
        (none, trace ++ List.zipWith (waitEvent none) inputs ms) := by
  induction ms with
  | nil => intro inputs n trace _; simp [waitLoop]
  | cons mach rest ih =>
    intro inputs n trace h
    cases inputs with
    | nil => simp [waitLoop]
    | cons input inputs =>
      have h0 := h 0 input mach (by simp) (by simp)
      simp only [Nat.add_zero] at h0
      simp only [List.zipWith_cons_cons, waitLoop, createdFor, h0]
      have := ih inputs (n + 1) (trace ++ [waitEvent none input mach]) (by
        intro i input' mach' hi hm
        have := h (i + 1) input' mach' (by simpa using hi) (by simpa using hm)
        simpa [Nat.add_assoc, Nat.add_comm 1 i] using this)
      simp only [createdFor, waitEvent] at this ⊢
      rw [this]
      simp [waitEvent]

/-- The wait loop when the wait call number `j` is the first that fails. -/
theorem waitLoop_failure (r : Remote) (ms : List Machine) :
    ∀ (inputs : List LaunchMachineInput) (n : Nat) (trace : List Event) (j : Nat)
      (inputj : LaunchMachineInput) (machj : Machine) (e : GoError),
      inputs[j]? = some inputj → ms[j]? = some machj →
      (∀ i input mach, i < j → inputs[i]? = some input → ms[i]? = some mach →
        r.WaitForStartOrStop (n + i) mach (expectedState input) (time.Minute * 5) = none) →
      r.WaitForStartOrStop (n + j) machj (expectedState inputj) (time.Minute * 5) = some e →
      waitLoop r n (List.zipWith createdFor inputs ms) trace =
        (some e, trace ++ List.zipWith (waitEvent none) (inputs.take j) (ms.take j)
          ++ [waitEvent (some e) inputj machj]) := by
  induction ms with
  | nil => intro inputs n trace j inputj machj e _ hm; simp at hm
  | cons mach rest ih =>
    intro inputs n trace j inputj machj e hi hm hok hfail
    cases inputs with
    | nil => simp at hi
    | cons input inputs =>
      cases j with
      | zero =>
        simp only [List.getElem?_cons_zero, Option.some.injEq] at hi hm
        subst hi hm
        simp only [Nat.add_zero] at hfail
        simp [waitLoop, createdFor, hfail, waitEvent]
      | succ j =>
        have h0 := hok 0 input mach (by omega) (by simp) (by simp)
        simp only [Nat.add_zero] at h0
        simp only [List.zipWith_cons_cons, waitLoop, createdFor, h0]
        have := ih inputs (n + 1) (trace ++ [waitEvent none input mach]) j inputj machj e
          (by simpa using hi) (by simpa using hm)
          (by
            intro i input' mach' hlt hi' hm'
            have := hok (i + 1) input' mach' (by omega) (by simpa using hi') (by simpa using hm')
            simpa [Nat.add_assoc, Nat.add_comm 1 i] using this)
          (by simpa [Nat.add_assoc, Nat.add_comm 1 j] using hfail)
        simp only [createdFor, waitEvent] at this ⊢
        rw [this]
        simp [waitEvent]

/-- The first element of a list that satisfies a predicate, found by `find?`. -/
theorem find?_first {α : Type} (p : α → Bool) (pre : List α) (v : α) (post : List α)
    (hpre : ∀ u ∈ pre, p u = false) (hv : p v = true) :
    (pre ++ v :: post).find? p = some v := by
  induction pre with
  | nil => simp [List.find?, hv]
  | cons u rest ih =>
    have hu := hpre u (List.mem_cons_self _ _)
    simp only [List.cons_append, List.find?, hu]
    exact ih (fun w hw => hpre w (List.mem_cons_of_mem _ hw))

/-! ## Recovery snapshot -/

/-- C1: after `createMachines` returns, with nil or with any error, the recovery
snapshot is exactly the list of the machines returned by the create calls of
this pass that succeeded, in call order, whatever the snapshot held before. In
particular, when the create calls of the first specs return the machines `ms`
and the create call of the next spec fails, an error is returned and the snapshot
is `ms`. -/
theorem createMachines_recovery_snapshot (r : Remote) (m : v2PlatformMigrator) :
    (createMachines r m).m.recovery.machinesCreated
        = (createMachines r m).trace.filterMap Event.created
    ∧ ∀ (ms : List Machine) (spec : LaunchMachineInput) (cause : GoError),
        (∀ i input mach, m.newMachinesInput[i]? = some input → ms[i]? = some mach →
          r.Launch i (prepareInput m input) = .ok mach) →
        m.newMachinesInput[ms.length]? = some spec →
        r.Launch ms.length (prepareInput m spec) = .error cause →
        (createMachines r m).err ≠ none ∧
        (createMachines r m).m.recovery.machinesCreated = ms := by
  constructor
  · obtain ⟨waits, htrace, hwaits⟩ := createMachines_trace r m
    have hnone : waits.filterMap Event.created = [] := by
      rw [List.filterMap_eq_nil_iff]
      intro e he
      have := hwaits e he
      cases e with
      | Launch input response => simp [Event.isWait] at this
      | WaitForStartOrStop machine expected timeout response => rfl
    rw [createMachines_snapshot, machinesOf_eq_map, htrace, List.filterMap_append, hnone,
      List.append_nil]
    exact createLoop_created r m m.newMachinesInput CreateState.initial rfl
  · intro ms spec cause hcreate hspec hfail
    have hlt : ms.length < m.newMachinesInput.length := by
      by_contra hge
      rw [List.getElem?_eq_none (by omega)] at hspec
      cases hspec
    have hloop := createLoop_failure r m ms m.newMachinesInput spec cause hcreate hspec hfail
    constructor
    · unfold createMachines
      simp [hloop]
    · rw [createMachines_snapshot, machinesOf_eq_map, hloop]
      exact zipWith_createdFor_machines ms m.newMachinesInput (by omega)

/-- Witness of `createMachines_recovery_snapshot`: three specs, the third create
call fails; the stale snapshot is replaced by the two machines created. -/
theorem createMachines_recovery_snapshot_witness :
    (createMachines (sampleRemote (some 2) none)
        (sampleProvisioner [sampleSpec "a" false, sampleSpec "b" false, sampleSpec "" true]
          [])).m.recovery.machinesCreated
      = [{ ID := str "m0" }, { ID := str "m1" }] :=
  ((createMachines_recovery_snapshot (sampleRemote (some 2) none)
    (sampleProvisioner [sampleSpec "a" false, sampleSpec "b" false, sampleSpec "" true] [])).2
    [{ ID := str "m0" }, { ID := str "m1" }] (sampleSpec "" true)
    (.errorf (str "quota exceeded"))
    (by
      intro i input mach hi hm
      match i with
      | 0 => simp [sampleProvisioner] at hi hm; subst hi hm; decide
      | 1 => simp [sampleProvisioner] at hi hm; subst hi hm; decide
      | n + 2 => simp at hm)
    (by decide) (by decide)).2

/-! ## Failure of a create call -/

/-- C2: when the create calls of the first specs return the machines `ms` and
the create call of the next spec `spec` fails with `cause`, `createMachines`
returns an error that names the region of `spec` and wraps `cause`; the calls
made are the create calls of those specs, in order, ending with the failed one,
one call per spec, and no wait call; `m.newMachines` is unchanged. -/
theorem createMachines_create_failure (r : Remote) (m : v2PlatformMigrator)
    (ms : List Machine) (spec : LaunchMachineInput) (cause : GoError)
    (hcreate : ∀ i input mach, m.newMachinesInput[i]? = some input → ms[i]? = some mach →
      r.Launch i (prepareInput m input) = .ok mach)
    (hspec : m.newMachinesInput[ms.length]? = some spec)
    (hfail : r.Launch ms.length (prepareInput m spec) = .error cause) :
    (createMachines r m).err = some (.wrap
        (str "failed creating a machine in region " ++ spec.Region ++ str ": " ++ cause.Error)
        cause)
    ∧ (createMachines r m).trace =
        List.zipWith (launchedEvent m) (m.newMachinesInput.take ms.length) ms
          ++ [Event.Launch (prepareInput m spec) (.error cause)]
    ∧ (createMachines r m).trace.length = ms.length + 1
    ∧ (∀ e ∈ (createMachines r m).trace, e.isLaunch = true ∧ e.isWait = false)
    ∧ (createMachines r m).m.newMachines = m.newMachines := by
  have hlt : ms.length < m.newMachinesInput.length := by
    by_contra hge
    rw [List.getElem?_eq_none (by omega)] at hspec
    cases hspec
  have hloop := createLoop_failure r m ms m.newMachinesInput spec cause hcreate hspec hfail
  have htake : List.zipWith (launchedEvent m) (m.newMachinesInput.take ms.length) ms
      = List.zipWith (launchedEvent m) m.newMachinesInput ms := by
    conv_rhs => rw [← List.take_append_drop ms.length m.newMachinesInput]
    conv_rhs => rw [← List.append_nil ms]
    rw [List.zipWith_append _ _ _ _ _ (by simp; omega)]
    simp
  have htrace : (createMachines r m).trace =
      List.zipWith (launchedEvent m) (m.newMachinesInput.take ms.length) ms
        ++ [Event.Launch (prepareInput m spec) (.error cause)] := by
    unfold createMachines
    simp [hloop, htake]
  refine ⟨?_, htrace, ?_, ?_, ?_⟩
  · unfold createMachines
    simp [hloop]
  · rw [htrace]
    simp
    omega
  · intro e he
    rw [htrace] at he
    simp only [List.mem_append, List.mem_singleton] at he
    rcases he with he | rfl
    · obtain ⟨i, hi, rfl⟩ := List.getElem_of_mem he
      simp [launchedEvent, Event.isLaunch, Event.isWait]
    · simp [Event.isLaunch, Event.isWait]
  · unfold createMachines
    simp [hloop]

/-- Witness of `createMachines_create_failure`: three specs, the second create
call fails. -/
theorem createMachines_create_failure_witness :
    (createMachines (sampleRemote (some 1) none)
        (sampleProvisioner [sampleSpec "a" false, sampleSpec "b" false, sampleSpec "" true]
          [])).err
      = some (.wrap (str "failed creating a machine in region iad: quota exceeded")
          (.errorf (str "quota exceeded"))) :=
  ((createMachines_create_failure (sampleRemote (some 1) none)
    (sampleProvisioner [sampleSpec "a" false, sampleSpec "b" false, sampleSpec "" true] [])
    [{ ID := str "m0" }] (sampleSpec "b" false) (.errorf (str "quota exceeded"))
    (by
      intro i input mach hi hm
      match i with
      | 0 => simp [sampleProvisioner] at hi hm; subst hi hm; decide
      | n + 1 => simp at hm)
    (by decide) (by decide)).1).trans (by decide)

/-! ## Volume affinity -/

/-- C8 at its failing input: two padded specs that carry no origin-allocation
tag and have no mount, and one volume assignment whose `previousAllocId` is
empty. Line 154 reads the missing tag as the empty string, so both specs are
submitted with the mount of that one volume, where a spec without origin tag is
to be submitted with no mount. -/
theorem padded_specs_mount_untagged_volume :
    (sampleSpec "" false).originTag = none
    ∧ (sampleSpec "" true).originTag = none
    ∧ (sampleSpec "" false).Config.Mounts = []
    ∧ (sampleSpec "" true).Config.Mounts = []
    ∧ ((createMachines (sampleRemote none none)
        (sampleProvisioner [sampleSpec "" false, sampleSpec "" true]
          [sampleVolume ""])).trace.take 2).map Event.submittedMounts
        = [some [{ Name := str "data", Path := str "/data", Volume := str "vol_1" }],
           some [{ Name := str "data", Path := str "/data", Volume := str "vol_1" }]] := by
  decide

/-- What lines 152-161 do, for every spec submitted by `createMachines`: the spec
is a spec of `m.newMachinesInput` as lines 148-161 prepare it, and a spec that
had no mount before gets a mount if and only if some volume assignment has a
`previousAllocId` equal to the origin tag as line 154 reads it (the empty string
for a spec without tag); the mount is then the single one built from the first
such assignment in list order. -/
theorem createMachines_submitted_mounts (r : Remote) (m : v2PlatformMigrator) :
    (∀ (submitted : LaunchMachineInput) (response : Launched),
      Event.Launch submitted response ∈ (createMachines r m).trace →
      ∃ input ∈ m.newMachinesInput, submitted = prepareInput m input)
    ∧ (∀ input : LaunchMachineInput, input.Config.Mounts = [] →
        ((prepareInput m input).Config.Mounts ≠ [] ↔
          ∃ v ∈ m.createdVolumes, v.previousAllocId = input.originTag.getD []) ∧
        (∀ pre v post, m.createdVolumes = pre ++ v :: post →
          (∀ u ∈ pre, u.previousAllocId ≠ input.originTag.getD []) →
          v.previousAllocId = input.originTag.getD [] →
          (prepareInput m input).Config.Mounts =
            [{ Name := v.vol.Name, Path := v.mountPoint, Volume := v.vol.ID }])) := by
  constructor
  · intro submitted response he
    obtain ⟨waits, htrace, hwaits⟩ := createMachines_trace r m
    rw [htrace, List.mem_append] at he
    have hloop : Event.Launch submitted response ∈
        (createLoop r m m.newMachinesInput CreateState.initial).trace := by
      rcases he with he | he
      · exact he
      · have := hwaits _ he
        simp [Event.isWait] at this
    rcases createLoop_trace_mem r m _ _ _ hloop with h | ⟨input, hmem, response', heq⟩
    · simp [CreateState.initial] at h
    · refine ⟨input, hmem, ?_⟩
      injection heq
  · intro input hmounts
    have hread : input.originTagRead = input.originTag.getD [] := rfl
    constructor
    · rw [prepareInput_Mounts, hread]
      cases hfind : m.createdVolumes.find?
          (fun v => decide (v.previousAllocId = input.originTag.getD [])) with
      | none =>
        simp only [hmounts, ne_eq, not_true_eq_false, false_iff, not_exists, not_and]
        intro v hv
        have := List.find?_eq_none.mp hfind v hv
        simpa using this
      | some nv =>
        simp only [ne_eq, List.cons_ne_self, not_false_eq_true, true_iff, reduceCtorEq]
        refine ⟨nv, List.mem_of_find?_eq_some hfind, ?_⟩
        simpa using List.find?_some hfind
    · intro pre v post hvols hpre hv
      rw [prepareInput_Mounts, hread, hvols,
        find?_first _ pre v post (by intro u hu; simpa using hpre u hu) (by simpa using hv)]
      rfl

/-- When every volume assignment has a non-empty `previousAllocId`, a spec that
had no mount before is submitted with a mount if and only if it carries an
origin-allocation tag and some assignment's `previousAllocId` equals that tag. -/
theorem prepareInput_mounts_of_tagged_volumes (r : Remote) (m : v2PlatformMigrator)
    (input : LaunchMachineInput)
    (hvols : ∀ v ∈ m.createdVolumes, v.previousAllocId ≠ [])
    (hmounts : input.Config.Mounts = []) :
    (prepareInput m input).Config.Mounts ≠ [] ↔
      ∃ tag, input.originTag = some tag ∧ ∃ v ∈ m.createdVolumes, v.previousAllocId = tag := by
  have hiff := ((createMachines_submitted_mounts r m).2 input hmounts).1
  constructor
  · intro h
    obtain ⟨v, hv, heq⟩ := hiff.mp h
    cases htag : input.originTag with
    | none =>
      rw [htag] at heq
      exact absurd heq (hvols v hv)
    | some tag =>
      rw [htag] at heq
      exact ⟨tag, rfl, v, hv, heq⟩
  · rintro ⟨tag, htag, v, hv, heq⟩
    exact hiff.mpr ⟨v, hv, by rw [htag]; exact heq⟩

/-! ## Convergence waits -/

/-- C9: when every create call of the pass returns a machine (the machines
`ms`), the trace is the create calls of all specs, in order, followed by wait
calls only. The machines are waited on in creation order, each with the bound
`time.Minute * 5` and the expected state of its spec (`"start"`, wait until
started, unless the spec requested skip-launch, then `"stop"`, wait until
stopped). When every wait succeeds, nil is returned and `m.newMachines` is the
set of all created machines in creation order. When the wait number `j` is the
first to fail, with `e`, the error returned is `e`, no machine after it is waited
on, and `m.newMachines` is unchanged. -/
theorem createMachines_two_phases (r : Remote) (m : v2PlatformMigrator) (ms : List Machine)
    (hlen : ms.length = m.newMachinesInput.length)
    (hcreate : ∀ i input mach, m.newMachinesInput[i]? = some input → ms[i]? = some mach →
      r.Launch i (prepareInput m input) = .ok mach) :
    ((∀ i input mach, m.newMachinesInput[i]? = some input → ms[i]? = some mach →
        r.WaitForStartOrStop i mach (expectedState input) (time.Minute * 5) = none) →
      (createMachines r m).err = none ∧
      (createMachines r m).trace =
        List.zipWith (launchedEvent m) m.newMachinesInput ms
          ++ List.zipWith (waitEvent none) m.newMachinesInput ms ∧
      (createMachines r m).m.newMachines = some { machines := ms })
    ∧ (∀ (j : Nat) (inputj : LaunchMachineInput) (machj : Machine) (e : GoError),
        m.newMachinesInput[j]? = some inputj → ms[j]? = some machj →
        (∀ i input mach, i < j → m.newMachinesInput[i]? = some input → ms[i]? = some mach →
          r.WaitForStartOrStop i mach (expectedState input) (time.Minute * 5) = none) →
        r.WaitForStartOrStop j machj (expectedState inputj) (time.Minute * 5) = some e →
        (createMachines r m).err = some e ∧
        (createMachines r m).trace =
          List.zipWith (launchedEvent m) m.newMachinesInput ms
            ++ List.zipWith (waitEvent none) (m.newMachinesInput.take j) (ms.take j)
            ++ [waitEvent (some e) inputj machj] ∧
        (createMachines r m).m.newMachines = m.newMachines) := by
  have hloop := createLoop_success r m ms m.newMachinesInput hlen hcreate
  constructor
  · intro hwait
    have hw := waitLoop_success r ms m.newMachinesInput 0
      (List.zipWith (launchedEvent m) m.newMachinesInput ms) (by simpa using hwait)
    unfold createMachines
    simp only [hloop, hw]
    refine ⟨trivial, trivial, ?_⟩
    simp only [machinesOf_eq_map]
    rw [zipWith_createdFor_machines ms m.newMachinesInput (by omega)]
  · intro j inputj machj e hj hmj hok hfail
    have hw := waitLoop_failure r ms m.newMachinesInput 0
      (List.zipWith (launchedEvent m) m.newMachinesInput ms) j inputj machj e hj hmj
      (by simpa using hok) (by simpa using hfail)
    unfold createMachines
    simp only [hloop, hw]
    exact ⟨trivial, trivial, trivial⟩

/-- Witness of `createMachines_two_phases`: three specs, all created, all waits
succeed; three create calls, then three wait calls, the third for `"stop"`. -/
theorem createMachines_two_phases_witness :
    (createMachines (sampleRemote none none)
        (sampleProvisioner [sampleSpec "a" false, sampleSpec "b" false, sampleSpec "" true]
          [])).m.newMachines
      = some { machines := [{ ID := str "m0" }, { ID := str "m1" }, { ID := str "m2" }] }
    ∧ (createMachines (sampleRemote none none)
        (sampleProvisioner [sampleSpec "a" false, sampleSpec "b" false, sampleSpec "" true]
          [])).trace.drop 3
      = [Event.WaitForStartOrStop { ID := str "m0" } (str "start") 300000000000 none,
         Event.WaitForStartOrStop { ID := str "m1" } (str "start") 300000000000 none,
         Event.WaitForStartOrStop { ID := str "m2" } (str "stop") 300000000000 none] :=
  ⟨((createMachines_two_phases (sampleRemote none none)
    (sampleProvisioner [sampleSpec "a" false, sampleSpec "b" false, sampleSpec "" true] [])
    [{ ID := str "m0" }, { ID := str "m1" }, { ID := str "m2" }] rfl
    (by
      intro i input mach hi hm
      match i with
      | 0 => simp [sampleProvisioner] at hi hm; subst hi hm; decide
      | 1 => simp [sampleProvisioner] at hi hm; subst hi hm; decide
      | 2 => simp [sampleProvisioner] at hi hm; subst hi hm; decide
      | n + 3 => simp at hm)).1
    (by intro i input mach _ _; rfl)).2.2, by decide⟩

end MigrateToV2
